import Mathlib

/-!
# Verification of the Prodit OAuth token lifecycle core

A shallow embedding of the credential cipher (`src/database/db.js`:
`encryptTokens` / `decryptTokens`), the credential store
(`saveXeroConnection`, `getXeroConnection`, `getSystemXeroConnection`,
`getAllXeroConnections`, `updateXeroTokens`, `deleteXeroConnection`,
`deleteSystemXeroConnection`), and the request pipeline of `server.js`
(`ensureValidToken`, `refreshAccessToken`, `xeroRequest`, the `/callback`
handler), together with theorems settling the specified properties.

Modelling conventions:
* JavaScript strings that carry token material are Lean `String`s; byte
  buffers are `List Nat`.
* The external `node:crypto` AES-256-GCM primitive is modelled as an ideal
  authenticated stream cipher: a deterministic keystream XOR for
  confidentiality and a collision-free tag binding (key, iv, ciphertext)
  for authenticity.  Only determinism, invertibility and tag binding are
  used by the theorems; these are exactly the guarantees the repository
  relies on from the primitive.
* The PostgreSQL table `xero_connections` (unique on `(user_id, tenant_id)`)
  is a list of rows plus a fresh-id counter; `CURRENT_TIMESTAMP` is an
  explicit clock field.
* `axios` calls are resolved against an explicit provider behaviour passed
  in as a parameter; a rejected promise carries an optional HTTP status
  (`none` models a network error with no response).
* Asynchronous `await` sequencing is modelled by ordinary sequential
  evaluation; each function additionally returns the ordered trace of
  provider calls and persistence writes it performed.
-/

namespace Prodit

/-! ## The embedded definitions: data model, cipher, store, pipeline, callback, fixtures -/

/-- JavaScript truthiness of an optional string (`undefined` and `""` are
falsy, every other string is truthy). -/
def jsTruthy : Option String → Bool
  | none => false
  | some s => !(s == "")

/-- A provider token bundle: the JSON object `{access_token, refresh_token,
expires_in}` returned by the token endpoint and stored (encrypted) by the
credential layer.  Fields may be absent from the JSON. -/
structure TokenBundle where
  access_token : Option String
  refresh_token : Option String
  expires_in : Option Nat
  deriving Repr, DecidableEq

/-- String data as a list of character codes (model of UTF-8 serialization). -/
def strToBytes (s : String) : List Nat := s.toList.map Char.toNat

/-- Inverse of `strToBytes`. -/
def bytesToStr (l : List Nat) : String := String.mk (l.map Char.ofNat)

/-- One optional string field of the JSON encoding, length-prefixed. -/
def serOptStr : Option String → List Nat
  | none => [0]
  | some s => 1 :: (strToBytes s).length :: strToBytes s

/-- One optional numeric field of the JSON encoding. -/
def serOptNat : Option Nat → List Nat
  | none => [0]
  | some n => [1, n]

/-- Model of `JSON.stringify` on a token bundle: an injective flat encoding
of the three fields. -/
def serializeTokens (b : TokenBundle) : List Nat :=
  serOptStr b.access_token ++ serOptStr b.refresh_token ++ serOptNat b.expires_in

/-- Decoder for one optional string field; returns the field and the rest. -/
def parseOptStr : List Nat → Option (Option String × List Nat)
  | 0 :: rest => some (none, rest)
  | 1 :: n :: rest =>
    if n ≤ rest.length then some (some (bytesToStr (rest.take n)), rest.drop n) else none
  | _ => none

/-- Decoder for one optional numeric field. -/
def parseOptNat : List Nat → Option (Option Nat × List Nat)
  | 0 :: rest => some (none, rest)
  | 1 :: n :: rest => some (some n, rest)
  | _ => none

/-- Model of `JSON.parse` on a serialized token bundle. -/
def parseTokens (l : List Nat) : Option TokenBundle :=
  match parseOptStr l with
  | none => none
  | some (a, l1) =>
    match parseOptStr l1 with
    | none => none
    | some (r, l2) =>
      match parseOptNat l2 with
      | some (e, []) => some ⟨a, r, e⟩
      | _ => none

/-- Model keystream of `aes-256-gcm` for a given key and iv: a deterministic
stream derived from key, iv and position.  Only determinism and length are
relevant to the claims. -/
def keyStream (key iv : List Nat) (n : Nat) : List Nat :=
  (List.range n).map (fun i => (key.sum + 1) * 131 + iv.sum * 17 + i)

/-- Byte-wise XOR of a plaintext with a keystream (`cipher.update`/`final`). -/
def xorBytes (p ks : List Nat) : List Nat := List.zipWith (· ^^^ ·) p ks

/-- Model of the GCM authentication tag: an ideal MAC binding key, iv and
ciphertext, collision-free by construction (GCM's computational
unforgeability, taken as ideal). -/
def authTag (key iv ct : List Nat) : List Nat :=
  iv.length :: (iv ++ (ct.length :: (ct ++ key)))

/-- The slice of `process.env` read by the cipher layer: the two accepted
key variables, each modelled (when set) as the base64-decoded key bytes. -/
structure Env where
  PREDITOR_TOKEN_KEY : Option (List Nat)
  PRODIT_TOKEN_KEY : Option (List Nat)
  deriving Repr, DecidableEq

/-- `process.env.PREDITOR_TOKEN_KEY || process.env.PRODIT_TOKEN_KEY`. -/
def encKeyB64 (env : Env) : Option (List Nat) :=
  env.PREDITOR_TOKEN_KEY <|> env.PRODIT_TOKEN_KEY

/-- Failure modes of the cipher layer.  The first two are repository-raised
`Error`s; `cipherKeyLength` is the error `crypto.createDecipheriv` raises on
a key that is not 32 bytes; `integrity` is the authentication failure in
`decipher.final()`; `jsonParse` is a `JSON.parse` failure. -/
inductive CryptoError
  | configMissing
  | configBadLength
  | cipherKeyLength
  | integrity
  | jsonParse
  deriving Repr, DecidableEq

/-- The sealed form returned by `encryptTokens`: base64-encodable ciphertext,
iv and tag (all modelled at the byte level). -/
structure SealedTokens where
  encrypted : List Nat
  iv : List Nat
  tag : List Nat
  deriving Repr, DecidableEq

/-- `encryptTokens(tokens)` of `src/database/db.js` (lines 82-104).  The
fresh random `iv` (`crypto.randomBytes(12)`) is passed in explicitly as the
randomness oracle.  Checks the key is configured and 32 bytes, serializes,
encrypts, returns ciphertext + iv + tag. -/
def encryptTokens (env : Env) (iv : List Nat) (tokens : TokenBundle) :
    Except CryptoError SealedTokens :=
  match encKeyB64 env with
  | none => .error .configMissing
  | some key =>
    if key.length ≠ 32 then .error .configBadLength
    else
      let json := serializeTokens tokens
      let encrypted := xorBytes json (keyStream key iv json.length)
      .ok ⟨encrypted, iv, authTag key iv encrypted⟩

/-- `decryptTokens(encrypted, iv, tag)` of `src/database/db.js` (lines
106-122).  Checks only that the key is configured (there is no repository
32-byte length check here, unlike `encryptTokens`; a wrong-length key is
rejected by `crypto.createDecipheriv` itself), verifies the tag, decrypts
and parses. -/
def decryptTokens (env : Env) (encrypted iv tag : List Nat) :
    Except CryptoError TokenBundle :=
  match encKeyB64 env with
  | none => .error .configMissing
  | some key =>
    if key.length ≠ 32 then .error .cipherKeyLength
    else if tag ≠ authTag key iv encrypted then .error .integrity
    else
      match parseTokens (xorBytes encrypted (keyStream key iv encrypted.length)) with
      | some b => .ok b
      | none => .error .jsonParse

/-- One row of the `xero_connections` table (`schema.sql`; unique index on
`(user_id, tenant_id)`). -/
structure XeroRow where
  id : Nat
  user_id : Nat
  tenant_id : String
  tenant_name : String
  encrypted_tokens : List Nat
  encryption_iv : List Nat
  encryption_tag : List Nat
  is_system_connection : Bool
  last_synced : Nat
  created_at : Nat
  deriving Repr, DecidableEq

/-- Database state: the `xero_connections` rows, the serial-id counter and
the current clock (`CURRENT_TIMESTAMP`). -/
structure DBState where
  rows : List XeroRow
  nextId : Nat
  now : Nat
  deriving Repr, DecidableEq

/-- Row predicate for the `(user_id, tenant_id)` unique key. -/
def keyMatch (u : Nat) (t : String) (r : XeroRow) : Bool :=
  r.user_id == u && r.tenant_id == t

/-- The `(user_id, tenant_id)` key of a row. -/
def keyOf (r : XeroRow) : Nat × String := (r.user_id, r.tenant_id)

/-- Well-formed store: the unique index holds, no two rows share a key. -/
def wfDB (db : DBState) : Prop := db.rows.Pairwise (fun a b => keyOf a ≠ keyOf b)

/-- Non-secret summary produced by `saveXeroConnection`
(`RETURNING id, tenant_id, tenant_name`). -/
structure RecordSummary where
  id : Nat
  tenant_id : String
  tenant_name : String
  deriving Repr, DecidableEq

/-- `saveXeroConnection({userId, tenantId, tenantName, tokens,
isSystemConnection})` of `src/database/db.js` (lines 124-143): encrypt, then
`INSERT ... ON CONFLICT (user_id, tenant_id) DO UPDATE`, returning the
non-secret summary.  The fresh iv for the embedded `encryptTokens` call is
the `ivR` parameter. -/
def saveXeroConnection (env : Env) (ivR : List Nat) (db : DBState) (userId : Nat)
    (tenantId tenantName : String) (tokens : TokenBundle) (isSystemConnection : Bool) :
    Except CryptoError (RecordSummary × DBState) :=
  match encryptTokens env ivR tokens with
  | .error e => .error e
  | .ok sealed =>
    match db.rows.find? (keyMatch userId tenantId) with
    | some r =>
      .ok (⟨r.id, tenantId, tenantName⟩,
           { db with rows := db.rows.map (fun x =>
               if keyMatch userId tenantId x then
                 { x with tenant_name := tenantName, encrypted_tokens := sealed.encrypted,
                          encryption_iv := sealed.iv, encryption_tag := sealed.tag,
                          is_system_connection := isSystemConnection, last_synced := db.now }
               else x) })
    | none =>
      let r : XeroRow :=
        ⟨db.nextId, userId, tenantId, tenantName, sealed.encrypted, sealed.iv, sealed.tag,
         isSystemConnection, db.now, db.now⟩
      .ok (⟨db.nextId, tenantId, tenantName⟩,
           { db with rows := db.rows ++ [r], nextId := db.nextId + 1 })

/-- Decrypted connection record as returned by the store lookups. -/
structure Connection where
  id : Nat
  userId : Nat
  tenantId : String
  tenantName : String
  tokens : TokenBundle
  lastSynced : Nat
  deriving Repr, DecidableEq

/-- `ORDER BY last_synced DESC LIMIT 1` over an already-filtered row set
(ties resolved arbitrarily, as in SQL). -/
def latestRow : List XeroRow → Option XeroRow
  | [] => none
  | r :: rs =>
    match latestRow rs with
    | none => some r
    | some m => if m.last_synced > r.last_synced then some m else some r

/-- Decrypt one row into the connection object built by `getXeroConnection`. -/
def rowToConnection (env : Env) (r : XeroRow) : Except CryptoError Connection :=
  match decryptTokens env r.encrypted_tokens r.encryption_iv r.encryption_tag with
  | .error e => .error e
  | .ok tokens => .ok ⟨r.id, r.user_id, r.tenant_id, r.tenant_name, tokens, r.last_synced⟩

/-- `getXeroConnection(userId, tenantId = null)` of `src/database/db.js`
(lines 145-181): select by user (and tenant when given), most recently
synced first, decrypt on read; `null` when no row exists. -/
def getXeroConnection (env : Env) (db : DBState) (userId : Nat)
    (tenantId : Option String) : Except CryptoError (Option Connection) :=
  let matching := match tenantId with
    | some t => db.rows.filter (keyMatch userId t)
    | none => db.rows.filter (fun r => r.user_id == userId)
  match latestRow matching with
  | none => .ok none
  | some r =>
    match rowToConnection env r with
    | .error e => .error e
    | .ok c => .ok (some c)

/-- `getSystemXeroConnection()` of `src/database/db.js` (lines 215-237):
the most recently synced row flagged `is_system_connection`. -/
def getSystemXeroConnection (env : Env) (db : DBState) :
    Except CryptoError (Option Connection) :=
  match latestRow (db.rows.filter (fun r => r.is_system_connection)) with
  | none => .ok none
  | some r =>
    match rowToConnection env r with
    | .error e => .error e
    | .ok c => .ok (some c)

/-- Non-secret listing entry returned by `getAllXeroConnections`
(`SELECT id, tenant_id, tenant_name, last_synced, created_at`). -/
structure ConnectionListing where
  id : Nat
  tenant_id : String
  tenant_name : String
  last_synced : Nat
  created_at : Nat
  deriving Repr, DecidableEq

/-- Insertion step of the `ORDER BY last_synced DESC` model. -/
def insertRowDesc (r : XeroRow) : List XeroRow → List XeroRow
  | [] => [r]
  | x :: xs => if x.last_synced ≥ r.last_synced then x :: insertRowDesc r xs else r :: x :: xs

/-- Sort rows by `last_synced` descending (insertion sort). -/
def sortRowsDesc (l : List XeroRow) : List XeroRow := l.foldr insertRowDesc []

/-- `getAllXeroConnections(userId)` of `src/database/db.js` (lines 183-193):
non-secret metadata of the user's rows, most recently synced first. -/
def getAllXeroConnections (db : DBState) (userId : Nat) : List ConnectionListing :=
  (sortRowsDesc (db.rows.filter (fun r => r.user_id == userId))).map
    (fun r => ⟨r.id, r.tenant_id, r.tenant_name, r.last_synced, r.created_at⟩)

/-- `deleteXeroConnection(userId, tenantId)` of `src/database/db.js`
(lines 195-199): hard delete, reporting whether a row was removed. -/
def deleteXeroConnection (db : DBState) (userId : Nat) (tenantId : String) :
    Bool × DBState :=
  (db.rows.any (keyMatch userId tenantId),
   { db with rows := db.rows.filter (fun r => !(keyMatch userId tenantId r)) })

/-- `updateXeroTokens(userId, tenantId, tokens)` of `src/database/db.js`
(lines 201-211): encrypt, then `UPDATE ... WHERE user_id = $4 AND
tenant_id = $5` rewriting the three cipher columns and `last_synced`
(a no-op when no row matches). -/
def updateXeroTokens (env : Env) (ivR : List Nat) (db : DBState) (userId : Nat)
    (tenantId : String) (tokens : TokenBundle) : Except CryptoError DBState :=
  match encryptTokens env ivR tokens with
  | .error e => .error e
  | .ok sealed =>
    .ok { db with rows := db.rows.map (fun r =>
      if keyMatch userId tenantId r then
        { r with encrypted_tokens := sealed.encrypted, encryption_iv := sealed.iv,
                 encryption_tag := sealed.tag, last_synced := db.now }
      else r) }

/-- `deleteSystemXeroConnection()` of `src/database/db.js` (lines 239-243). -/
def deleteSystemXeroConnection (db : DBState) : Bool × DBState :=
  (db.rows.any (fun r => r.is_system_connection),
   { db with rows := db.rows.filter (fun r => !r.is_system_connection) })

/-- Failure surfaces of the request pipeline (`server.js`): the
`ensureValidToken` no-connection `Error` (whose message depends on
`isAdmin`), a decryption error thrown while reading the store, an `axios`
rejection from the API endpoint (optional status; `none` = no response),
and an `axios` rejection from the token endpoint during refresh. -/
inductive PipeErr
  | noConnection (isAdmin : Bool)
  | crypto (e : CryptoError)
  | apiError (status : Option Nat) (body : String)
  | refreshExchange (body : String)
  deriving Repr, DecidableEq

/-- The value returned by `ensureValidToken`: access/refresh token of the
resolved record, its tenant and its owning user. -/
structure TokenInfo where
  accessToken : Option String
  refreshToken : Option String
  tenantId : String
  connectionUserId : Nat
  deriving Repr, DecidableEq

/-- `ensureValidToken(userId, isAdmin, tenantId = null)` of `server.js`
(lines 611-636): admins resolve their own connection, everyone else the
system-wide one; missing record is an error; otherwise project out tokens,
tenant and the record's owner. -/
def ensureValidToken (env : Env) (db : DBState) (userId : Nat) (isAdmin : Bool)
    (tenantId : Option String) : Except PipeErr TokenInfo :=
  match (if isAdmin then getXeroConnection env db userId tenantId
         else getSystemXeroConnection env db) with
  | .error e => .error (.crypto e)
  | .ok none => .error (.noConnection isAdmin)
  | .ok (some c) =>
    .ok ⟨c.tokens.access_token, c.tokens.refresh_token, c.tenantId, c.userId⟩

/-- Outcome of one `axios` API call: fulfilled with a body, or rejected with
an optional HTTP status (`err.response?.status`; `none` models a network
failure with no response) and an error body. -/
inductive ApiResult
  | ok (body : String)
  | fail (status : Option Nat) (body : String)
  deriving Repr, DecidableEq

/-- Provider behaviour presented to `xeroRequest`: the API endpoint as a
function of the call sequence number and the presented access token, and
the token endpoint for `grant_type=refresh_token` as a function of the
presented refresh token (`.error body` models a rejected refresh request). -/
structure Provider where
  api : Nat → Option String → ApiResult
  refreshEx : Option String → Except String TokenBundle

/-- Observable events of one pipeline invocation, in execution order. -/
inductive Ev
  | apiCall (idx : Nat) (accessToken : Option String) (tenantId : String)
  | refreshCall (refreshToken : Option String)
  | persistTokens (userId : Nat) (tenantId : String) (tokens : TokenBundle)
  deriving Repr, DecidableEq

/-- `refreshAccessToken(userId, tenantId, refreshToken)` of `server.js`
(lines 638-652): POST the refresh grant; on success persist the new bundle
via `updateXeroTokens` and return the new access token; a provider
rejection propagates and nothing is persisted. -/
def refreshAccessToken (env : Env) (ivR : List Nat) (prov : Provider) (db : DBState)
    (userId : Nat) (tenantId : String) (refreshToken : Option String) :
    Except PipeErr (Option String) × DBState × List Ev :=
  match prov.refreshEx refreshToken with
  | .error body => (.error (.refreshExchange body), db, [.refreshCall refreshToken])
  | .ok newTokens =>
    match updateXeroTokens env ivR db userId tenantId newTokens with
    | .error e => (.error (.crypto e), db, [.refreshCall refreshToken])
    | .ok db' =>
      (.ok newTokens.access_token, db',
       [.refreshCall refreshToken, .persistTokens userId tenantId newTokens])

/-- `xeroRequest(userId, isAdmin, method, urlPath, config)` of `server.js`
(lines 654-681): resolve the token, make the call; on a 401 rejection with
a truthy stored refresh token, refresh (persisting under the connection
owner's id) and retry exactly once, surfacing the retry outcome as is; any
other rejection propagates immediately. -/
def xeroRequest (env : Env) (ivR : List Nat) (prov : Provider) (db : DBState)
    (userId : Nat) (isAdmin : Bool) :
    Except PipeErr String × DBState × List Ev :=
  match ensureValidToken env db userId isAdmin none with
  | .error e => (.error e, db, [])
  | .ok tokenInfo =>
    let firstEv := Ev.apiCall 0 tokenInfo.accessToken tokenInfo.tenantId
    match prov.api 0 tokenInfo.accessToken with
    | .ok body => (.ok body, db, [firstEv])
    | .fail status body =>
      if (status == some 401) && jsTruthy tokenInfo.refreshToken then
        match refreshAccessToken env ivR prov db tokenInfo.connectionUserId
            tokenInfo.tenantId tokenInfo.refreshToken with
        | (.error e, db', tr) => (.error e, db', firstEv :: tr)
        | (.ok newAccessToken, db', tr) =>
          match prov.api 1 newAccessToken with
          | .ok retryBody =>
            (.ok retryBody, db',
             firstEv :: tr ++ [.apiCall 1 newAccessToken tokenInfo.tenantId])
          | .fail st2 b2 =>
            (.error (.apiError st2 b2), db',
             firstEv :: tr ++ [.apiCall 1 newAccessToken tokenInfo.tenantId])
      else (.error (.apiError status body), db, [firstEv])

/-- One entry of the provider's connections listing:
`{tenantId, tenantName, createdDateUtc}`, the date as a timestamp. -/
structure OrgConnection where
  tenantId : String
  tenantName : String
  createdDateUtc : Nat
  deriving Repr, DecidableEq

/-- Comparator underlying `conns.sort((a, b) => new Date(b.createdDateUtc) -
new Date(a.createdDateUtc))`: descending by connection date. -/
def orgGe (a b : OrgConnection) : Prop := b.createdDateUtc ≤ a.createdDateUtc

instance : DecidableRel orgGe := fun _ _ => Nat.decLe _ _

instance : IsTotal OrgConnection orgGe :=
  ⟨fun a b => Nat.le_total b.createdDateUtc a.createdDateUtc⟩

instance : IsTrans OrgConnection orgGe :=
  ⟨fun _ _ _ h1 h2 => Nat.le_trans h2 h1⟩

/-- The connections array sorted most recently connected first. -/
def sortOrgsDesc (l : List OrgConnection) : List OrgConnection :=
  l.insertionSort orgGe

/-- Provider behaviour presented to the `/callback` handler: the token
endpoint for `grant_type=authorization_code` and the connections listing
endpoint, each of which may reject with an error body. -/
structure CallbackProvider where
  tokenExchange : Option String → Except String TokenBundle
  connections : Option String → Except String (List OrgConnection)

/-- Observable events of one `/callback` invocation, in execution order. -/
inductive CbEv
  | exchangeCall (code : Option String)
  | connectionsCall (accessToken : Option String)
  | saveConnection (userId : Nat) (tenantId tenantName : String) (tokens : TokenBundle)
  deriving Repr, DecidableEq

/-- Response rendered by the `/callback` handler: the success redirect, the
500 page for the thrown `Invalid state parameter`, the 400 page for an
empty organization list, the catch-all 500 page with provider detail, and
the catch-all page for an encryption failure during save. -/
inductive CbResult
  | redirect (path : String)
  | invalidState
  | noOrganizations
  | oauthFailed (detail : String)
  | saveFailed (e : CryptoError)
  deriving Repr, DecidableEq

/-- The `/callback` route handler of `server.js` (lines 554-607).  The state
check `!state || !req.session.userId || state !== req.session.userId.toString()`
runs before anything else; then code is exchanged, the tenant list fetched,
the most recently connected tenant chosen, and the connection saved (flagged
system-wide for admins).  `req.userId` is `req.session.userId` (set by the
`attachUser` middleware), written `sessionUserId.getD 0` here: the branch
that uses it is only reachable with a session user present. -/
def callbackHandler (env : Env) (ivR : List Nat) (prov : CallbackProvider) (db : DBState)
    (sessionUserId : Option Nat) (isAdmin : Bool) (qCode qState : Option String) :
    CbResult × DBState × List CbEv :=
  if !(jsTruthy qState) || sessionUserId.isNone
      || !(qState == sessionUserId.map (fun u => toString u)) then
    (.invalidState, db, [])
  else
    match prov.tokenExchange qCode with
    | .error detail => (.oauthFailed detail, db, [.exchangeCall qCode])
    | .ok tokens =>
      match prov.connections tokens.access_token with
      | .error detail =>
        (.oauthFailed detail, db, [.exchangeCall qCode, .connectionsCall tokens.access_token])
      | .ok conns =>
        if conns.isEmpty then
          (.noOrganizations, db, [.exchangeCall qCode, .connectionsCall tokens.access_token])
        else
          match sortOrgsDesc conns with
          | [] =>  -- unreachable: sorting a non-empty list is non-empty
            (.noOrganizations, db, [.exchangeCall qCode, .connectionsCall tokens.access_token])
          | chosen :: _ =>
            match saveXeroConnection env ivR db (sessionUserId.getD 0) chosen.tenantId
                chosen.tenantName tokens isAdmin with
            | .error e =>
              (.saveFailed e, db, [.exchangeCall qCode, .connectionsCall tokens.access_token])
            | .ok (_, db') =>
              (.redirect (if isAdmin then "/admin?connected=true" else "/?connected=true"),
               db',
               [.exchangeCall qCode, .connectionsCall tokens.access_token,
                .saveConnection (sessionUserId.getD 0) chosen.tenantId chosen.tenantName tokens])

instance {ε α : Type} [DecidableEq ε] [DecidableEq α] : DecidableEq (Except ε α) := fun a b =>
  match a, b with
  | .error e, .error f =>
    if h : e = f then .isTrue (by rw [h]) else .isFalse (fun hc => h (by injection hc))
  | .error _, .ok _ => .isFalse (fun hc => Except.noConfusion hc)
  | .ok _, .error _ => .isFalse (fun hc => Except.noConfusion hc)
  | .ok x, .ok y =>
    if h : x = y then .isTrue (by rw [h]) else .isFalse (fun hc => h (by injection hc))

/-- Environment with a valid 32-byte key configured. -/
def envT : Env := ⟨some (List.replicate 32 7), none⟩

/-- Environment with no key configured. -/
def envNone : Env := ⟨none, none⟩

/-- Environment whose key decodes to 16 bytes, not 32. -/
def envShortKey : Env := ⟨some (List.replicate 16 1), none⟩

/-- A fresh 12-byte iv. -/
def ivT : List Nat := List.replicate 12 3

/-- A second fresh 12-byte iv. -/
def ivT2 : List Nat := List.replicate 12 4

/-- A well-formed token bundle. -/
def bundleT : TokenBundle := ⟨some "atk1", some "rtk1", some 1800⟩

/-- A second well-formed token bundle. -/
def bundleT2 : TokenBundle := ⟨some "atk2", some "rtk2", some 1800⟩

/-- The bundle returned by a successful refresh exchange in the fixtures. -/
def bundleT9 : TokenBundle := ⟨some "atk9", some "rtk9", some 1800⟩

/-- A bundle with an access token but no refresh token. -/
def bundleNoRefresh : TokenBundle := ⟨some "atk3", none, some 1800⟩

/-- The empty store. -/
def dbEmpty : DBState := ⟨[], 1, 100⟩

/-- The sealed form of `bundleT` under `envT` and `ivT`. -/
def sealedT : SealedTokens :=
  match encryptTokens envT ivT bundleT with
  | .ok s => s
  | .error _ => ⟨[], [], []⟩

/-- Flip bit `k` of byte `i` of a buffer. -/
def flipBit (l : List Nat) (i k : Nat) : List Nat :=
  l.set i ((l.getD i 0) ^^^ (2 ^ k))

/-- Store holding one system-wide connection for owner 1, tenant `t1`,
sealed `bundleT`. -/
def dbT : DBState :=
  match saveXeroConnection envT ivT dbEmpty 1 "t1" "Org One" bundleT true with
  | .ok (_, db) => db
  | .error _ => dbEmpty

/-- The token info `ensureValidToken` resolves from `dbT`. -/
def tiT : TokenInfo := ⟨some "atk1", some "rtk1", "t1", 1⟩

/-- Provider that rejects the first API call with 401, accepts the refresh
of `rtk1` with `bundleT9`, and accepts the retry. -/
def provT : Provider :=
  { api := fun idx _tok => if idx = 0 then .fail (some 401) "token expired" else .ok "items"
    refreshEx := fun rt => if rt == some "rtk1" then .ok bundleT9 else .error "invalid_grant" }

/-- Provider that rejects the first API call with 401 and rejects every
refresh with an `invalid_grant` body. -/
def provRefuse : Provider :=
  { api := fun _ _ => .fail (some 401) "token expired"
    refreshEx := fun _ => .error "invalid_grant" }

/-- `dbT` after the fixture refresh persisted `bundleT9`. -/
def dbT2 : DBState :=
  match updateXeroTokens envT ivT2 dbT 1 "t1" bundleT9 with
  | .ok db => db
  | .error _ => dbT

/-- Store holding one system-wide connection whose bundle has no refresh
token. -/
def dbNR : DBState :=
  match saveXeroConnection envT ivT dbEmpty 1 "t1" "Org One" bundleNoRefresh true with
  | .ok (_, db) => db
  | .error _ => dbEmpty

/-- Organization connected on 2024-01-01. -/
def orgA : OrgConnection := ⟨"tA", "Org A", 20240101⟩

/-- Organization connected on 2024-06-01. -/
def orgB : OrgConnection := ⟨"tB", "Org B", 20240601⟩

/-- The listing with `orgA` first, `orgB` second. -/
def orgsT : List OrgConnection := [orgA, orgB]

/-- Callback provider accepting code `c0` and listing `orgsT`. -/
def cbProvT : CallbackProvider :=
  { tokenExchange := fun c => if c == some "c0" then .ok bundleT else .error "invalid_grant"
    connections := fun _ => .ok orgsT }

/-- Callback provider accepting code `c0` but listing no organizations. -/
def cbProvNoOrgs : CallbackProvider :=
  { tokenExchange := fun c => if c == some "c0" then .ok bundleT else .error "invalid_grant"
    connections := fun _ => .ok [] }

/-- `dbEmpty` after saving `orgB` for owner 1 (non-admin). -/
def dbOrgB : DBState :=
  match saveXeroConnection envT ivT dbEmpty 1 "tB" "Org B" bundleT false with
  | .ok (_, db) => db
  | .error _ => dbEmpty

/-- A bundle carries both a (truthy) access token and a refresh token. -/
def hasBothTokens (b : TokenBundle) : Prop :=
  jsTruthy b.access_token = true ∧ jsTruthy b.refresh_token = true

/-- A stored row decrypts to a bundle carrying both tokens. -/
def bundleStoredPair (env : Env) (r : XeroRow) : Prop :=
  ∃ b, decryptTokens env r.encrypted_tokens r.encryption_iv r.encryption_tag = .ok b ∧
    hasBothTokens b

/-- Store states reachable through the repository's credential operations,
starting from the empty table: initial save on grant exchange
(`saveXeroConnection`, from the `/callback` handler), update on refresh
(`updateXeroTokens`, from `refreshAccessToken`), deletions, and clock
advance.  The two writing steps carry the provider wire contract of §6
(token responses always hold both an access and a refresh token) as the
`hasBothTokens` hypothesis. -/
inductive Reach (env : Env) : DBState → Prop
  | init (now : Nat) : Reach env ⟨[], 1, now⟩
  | tick (db : DBState) (n : Nat) (hr : Reach env db) : Reach env { db with now := n }
  | grant (db : DBState) (iv : List Nat) (u : Nat) (t name : String)
      (tk : TokenBundle) (sys : Bool) (s : RecordSummary) (db' : DBState)
      (htk : hasBothTokens tk)
      (h : saveXeroConnection env iv db u t name tk sys = .ok (s, db'))
      (hr : Reach env db) : Reach env db'
  | refresh (db : DBState) (iv : List Nat) (u : Nat) (t : String)
      (tk : TokenBundle) (db' : DBState)
      (htk : hasBothTokens tk)
      (h : updateXeroTokens env iv db u t tk = .ok db')
      (hr : Reach env db) : Reach env db'
  | del (db : DBState) (u : Nat) (t : String) (hr : Reach env db) :
      Reach env (deleteXeroConnection db u t).2
  | delSys (db : DBState) (hr : Reach env db) :
      Reach env (deleteSystemXeroConnection db).2

/-- The single row of `dbT`. -/
def rowT : XeroRow :=
  ⟨1, 1, "t1", "Org One", sealedT.encrypted, sealedT.iv, sealedT.tag, true, 100, 100⟩

/-- The sealed form of `bundleT2` under `envT` and `ivT2`. -/
def sealedT2 : SealedTokens :=
  match encryptTokens envT ivT2 bundleT2 with
  | .ok s => s
  | .error _ => ⟨[], [], []⟩

/-- `dbT` after upserting `bundleT2` for the same key. -/
def dbC6 : DBState :=
  match saveXeroConnection envT ivT2 dbT 1 "t1" "Org One" bundleT2 true with
  | .ok (_, db) => db
  | .error _ => dbT

/-- The single row of `dbC6`. -/
def rowC6 : XeroRow :=
  ⟨1, 1, "t1", "Org One", sealedT2.encrypted, sealedT2.iv, sealedT2.tag, true, 100, 100⟩

/-! ## The theorems -/

theorem bytesToStr_strToBytes (s : String) : bytesToStr (strToBytes s) = s := by
  have hmap : ∀ l : List Char, (l.map Char.toNat).map Char.ofNat = l := by
    intro l
    induction l with
    | nil => rfl
    | cons c l ih => simp [ih, Char.ofNat_toNat]
  obtain ⟨data⟩ := s
  simp [bytesToStr, strToBytes, String.toList, hmap]

theorem parseOptStr_serOptStr (o : Option String) (t : List Nat) :
    parseOptStr (serOptStr o ++ t) = some (o, t) := by
  cases o with
  | none => rfl
  | some s =>
    simp only [serOptStr, List.cons_append, parseOptStr]
    rw [if_pos (by simp)]
    rw [List.take_left, List.drop_left, bytesToStr_strToBytes]

theorem parseOptNat_serOptNat (o : Option Nat) (t : List Nat) :
    parseOptNat (serOptNat o ++ t) = some (o, t) := by
  cases o <;> rfl

theorem parseTokens_serializeTokens (b : TokenBundle) :
    parseTokens (serializeTokens b) = some b := by
  have h3 : parseOptNat (serOptNat b.expires_in) = some (b.expires_in, []) := by
    simpa using parseOptNat_serOptNat b.expires_in []
  simp only [parseTokens, serializeTokens, List.append_assoc, parseOptStr_serOptStr, h3]

theorem length_keyStream (key iv : List Nat) (n : Nat) :
    (keyStream key iv n).length = n := by
  simp [keyStream]

theorem length_xorBytes (p ks : List Nat) (h : p.length ≤ ks.length) :
    (xorBytes p ks).length = p.length := by
  simp [xorBytes, Nat.min_eq_left h]

theorem xorBytes_xorBytes (p : List Nat) :
    ∀ ks : List Nat, p.length ≤ ks.length → xorBytes (xorBytes p ks) ks = p := by
  induction p with
  | nil => intro ks _; rfl
  | cons a p ih =>
    intro ks h
    cases ks with
    | nil => simp at h
    | cons b ks =>
      simp only [xorBytes, List.zipWith_cons_cons, List.cons.injEq]
      exact ⟨Nat.xor_cancel_right b a, ih ks (by simpa using h)⟩

theorem authTag_inj {key iv ct iv' ct' : List Nat}
    (h : authTag key iv ct = authTag key iv' ct') : iv = iv' ∧ ct = ct' := by
  simp only [authTag, List.cons.injEq] at h
  obtain ⟨hlen, htail⟩ := h
  obtain ⟨hiv, htail2⟩ := List.append_inj htail hlen
  simp only [List.cons.injEq] at htail2
  obtain ⟨hctlen, htail3⟩ := htail2
  exact ⟨hiv, (List.append_inj htail3 hctlen).1⟩

/-- Core round-trip lemma: whatever `encryptTokens` seals, `decryptTokens`
opens back to the same bundle under the same environment. -/
theorem decryptTokens_encryptTokens (env : Env) (iv : List Nat) (b : TokenBundle)
    (s : SealedTokens) (h : encryptTokens env iv b = .ok s) :
    decryptTokens env s.encrypted s.iv s.tag = .ok b := by
  unfold encryptTokens at h
  split at h
  · exact absurd h (by simp)
  · rename_i key hk
    split at h
    · exact absurd h (by simp)
    · rename_i hlen
      simp only [Except.ok.injEq] at h
      subst h
      have hctlen : (xorBytes (serializeTokens b)
          (keyStream key iv (serializeTokens b).length)).length
          = (serializeTokens b).length :=
        length_xorBytes _ _ (by rw [length_keyStream])
      simp only [decryptTokens, hk, if_neg hlen]
      rw [if_neg (by simp)]
      rw [hctlen, xorBytes_xorBytes _ _ (by rw [length_keyStream])]
      rw [parseTokens_serializeTokens]

theorem insertRowDesc_perm (r : XeroRow) (l : List XeroRow) :
    (insertRowDesc r l).Perm (r :: l) := by
  induction l with
  | nil => exact List.Perm.refl _
  | cons x xs ih =>
    simp only [insertRowDesc]
    by_cases h : x.last_synced ≥ r.last_synced
    · rw [if_pos h]
      exact ((ih.cons x).trans (List.Perm.swap r x xs))
    · rw [if_neg h]

theorem sortRowsDesc_perm (l : List XeroRow) : (sortRowsDesc l).Perm l := by
  induction l with
  | nil => exact List.Perm.refl _
  | cons x xs ih =>
    simp only [sortRowsDesc, List.foldr_cons]
    exact (insertRowDesc_perm x _).trans (ih.cons x)

/-- With a configured 32-byte key, `encryptTokens` always succeeds, and its
output is determined by the serialized bundle, key and iv. -/
theorem encryptTokens_ok (env : Env) (key : List Nat)
    (hkey : encKeyB64 env = some key) (hklen : key.length = 32)
    (iv : List Nat) (b : TokenBundle) :
    encryptTokens env iv b = .ok
      ⟨xorBytes (serializeTokens b) (keyStream key iv (serializeTokens b).length), iv,
       authTag key iv (xorBytes (serializeTokens b)
         (keyStream key iv (serializeTokens b).length))⟩ := by
  simp only [encryptTokens, hkey]
  rw [if_neg (by simp [hklen])]

/-- **C2** For every valid token bundle `b`, sealing under the configured
32-byte key and opening the resulting ciphertext, iv and tag under the same
key returns a bundle equal to `b`. -/
theorem seal_open_roundtrip (env : Env) (key : List Nat)
    (hkey : encKeyB64 env = some key) (hklen : key.length = 32)
    (iv : List Nat) (b : TokenBundle) :
    ∃ s, encryptTokens env iv b = .ok s ∧
      decryptTokens env s.encrypted s.iv s.tag = .ok b := by
  have henc := encryptTokens_ok env key hkey hklen iv b
  exact ⟨_, henc, decryptTokens_encryptTokens env iv b _ henc⟩

/-- Witness for C2 at the fixture key, iv and bundle. -/
theorem seal_open_roundtrip_witness :
    ∃ s, encryptTokens envT ivT bundleT = .ok s ∧
      decryptTokens envT s.encrypted s.iv s.tag = .ok bundleT :=
  seal_open_roundtrip envT (List.replicate 32 7) rfl (by decide) ivT bundleT

/-- Counterexample to C4 as stated: with a configured key that decodes to
16 bytes, `decryptTokens` does not fail with either repository
configuration error (it performs no length check of its own; the failure is
the cipher construction's key-length rejection). -/
theorem decrypt_shortKey_not_configError :
    decryptTokens envShortKey [] [] [] = .error .cipherKeyLength ∧
    CryptoError.cipherKeyLength ≠ CryptoError.configMissing ∧
    CryptoError.cipherKeyLength ≠ CryptoError.configBadLength := by
  decide

/-- **C4 (amended)** If the configured key is absent, `decryptTokens` fails
with the repository configuration error before any decryption; if the key
decodes to a length other than 32 bytes, `decryptTokens` performs no
repository length check (that check exists only in `encryptTokens`) and the
operation fails, still before any decryption, with the cipher layer's
key-length error instead. -/
theorem decrypt_key_errors (env : Env) (encrypted iv tag : List Nat) :
    (encKeyB64 env = none →
      decryptTokens env encrypted iv tag = .error .configMissing) ∧
    (∀ key, encKeyB64 env = some key → key.length ≠ 32 →
      decryptTokens env encrypted iv tag = .error .cipherKeyLength) := by
  constructor
  · intro h
    unfold decryptTokens
    rw [h]
  · intro key hk hlen
    unfold decryptTokens
    rw [hk]
    simp only [if_pos hlen]

/-- Witness for C4 (amended) at a missing key and at a 16-byte key. -/
theorem decrypt_key_errors_witness :
    decryptTokens envNone [] [] [] = .error .configMissing ∧
    decryptTokens envShortKey [] [] [] = .error .cipherKeyLength :=
  ⟨(decrypt_key_errors envNone [] [] []).1 rfl,
   (decrypt_key_errors envShortKey [] [] []).2 (List.replicate 16 1) rfl (by decide)⟩

theorem flipBit_length (l : List Nat) (i k : Nat) :
    (flipBit l i k).length = l.length := List.length_set l i _

theorem xor_two_pow_ne (a k : Nat) : a ^^^ 2 ^ k ≠ a := by
  intro h
  have h2 := congrArg (fun x => a ^^^ x) h
  simp only [← Nat.xor_assoc, Nat.xor_self, Nat.zero_xor] at h2
  exact absurd h2 (by positivity)

theorem list_set_ne (l : List Nat) (i v : Nat) (h : i < l.length)
    (hne : v ≠ l.get ⟨i, h⟩) : l.set i v ≠ l := by
  intro he
  have h2 : (l.set i v).get ⟨i, by simpa using h⟩ = l.get ⟨i, h⟩ := by
    simp [he]
  rw [List.get_eq_getElem, List.get_eq_getElem, List.getElem_set] at h2
  simp at h2
  exact hne (by simpa [List.get_eq_getElem] using h2)

theorem flipBit_ne (l : List Nat) (i k : Nat) (h : i < l.length) :
    flipBit l i k ≠ l := by
  apply list_set_ne l i _ h
  rw [List.get_eq_getElem]
  rw [show l[i] = l.getD i 0 from (List.getD_eq_getElem l 0 h).symm]
  exact xor_two_pow_ne _ k

/-- Whenever the presented tag differs from the recomputed tag, `open`
fails with the integrity error. -/
theorem decrypt_integrity (env : Env) (key : List Nat)
    (hkey : encKeyB64 env = some key) (hklen : key.length = 32)
    {encrypted iv tag : List Nat} (hne : tag ≠ authTag key iv encrypted) :
    decryptTokens env encrypted iv tag = .error .integrity := by
  simp only [decryptTokens, hkey]
  rw [if_neg (by simp [hklen]), if_pos hne]

/-- **C5** For every sealed bundle, flipping any single bit of the stored
ciphertext, iv or authentication tag makes `decryptTokens` fail with the
integrity (authentication) error; tampered input is never silently decoded. -/
theorem tamper_detected (env : Env) (iv : List Nat) (b : TokenBundle)
    (s : SealedTokens) (h : encryptTokens env iv b = .ok s) (i k : Nat) :
    (i < s.encrypted.length →
      decryptTokens env (flipBit s.encrypted i k) s.iv s.tag = .error .integrity) ∧
    (i < s.iv.length →
      decryptTokens env s.encrypted (flipBit s.iv i k) s.tag = .error .integrity) ∧
    (i < s.tag.length →
      decryptTokens env s.encrypted s.iv (flipBit s.tag i k) = .error .integrity) := by
  unfold encryptTokens at h
  split at h
  · exact absurd h (by simp)
  · rename_i key hk
    split at h
    · exact absurd h (by simp)
    · rename_i hlen
      have hklen : key.length = 32 := not_not.mp hlen
      simp only [Except.ok.injEq] at h
      subst h
      refine ⟨fun hi => ?_, fun hi => ?_, fun hi => ?_⟩
      · apply decrypt_integrity env key hk hklen
        intro heq
        exact flipBit_ne _ i k hi ((authTag_inj heq).2).symm
      · apply decrypt_integrity env key hk hklen
        intro heq
        exact flipBit_ne _ i k hi ((authTag_inj heq).1).symm
      · apply decrypt_integrity env key hk hklen
        exact flipBit_ne _ i k hi

/-- Witness for C5: flipping bit 0 of byte 0 of each component of the
sealed fixture is detected. -/
theorem tamper_detected_witness :
    decryptTokens envT (flipBit sealedT.encrypted 0 0) sealedT.iv sealedT.tag
        = .error .integrity ∧
    decryptTokens envT sealedT.encrypted (flipBit sealedT.iv 0 0) sealedT.tag
        = .error .integrity ∧
    decryptTokens envT sealedT.encrypted sealedT.iv (flipBit sealedT.tag 0 0)
        = .error .integrity := by
  have h := tamper_detected envT ivT bundleT sealedT rfl 0 0
  exact ⟨h.1 (by decide), h.2.1 (by decide), h.2.2 (by decide)⟩

/-- **C1** With a resolved record whose refresh token is truthy: a first
response with a non-401 failure status propagates immediately with no
refresh; a first 401 triggers exactly one refresh exchange, the new bundle
is persisted under the record's owner before the retry, the request is
retried exactly once with the new access token, and the retry's outcome
(success or any failure, including a second 401) is surfaced unmodified. -/
theorem xeroRequest_retry_once (env : Env) (ivR : List Nat) (prov : Provider)
    (db : DBState) (userId : Nat) (isAdmin : Bool) (ti : TokenInfo)
    (hti : ensureValidToken env db userId isAdmin none = .ok ti)
    (htr : jsTruthy ti.refreshToken = true) :
    (∀ st body, prov.api 0 ti.accessToken = .fail st body → st ≠ some 401 →
      xeroRequest env ivR prov db userId isAdmin =
        (.error (.apiError st body), db, [.apiCall 0 ti.accessToken ti.tenantId])) ∧
    (∀ body newTokens db', prov.api 0 ti.accessToken = .fail (some 401) body →
      prov.refreshEx ti.refreshToken = .ok newTokens →
      updateXeroTokens env ivR db ti.connectionUserId ti.tenantId newTokens = .ok db' →
      xeroRequest env ivR prov db userId isAdmin =
        ((match prov.api 1 newTokens.access_token with
          | .ok b2 => .ok b2
          | .fail st2 b2 => .error (.apiError st2 b2)),
         db',
         [.apiCall 0 ti.accessToken ti.tenantId,
          .refreshCall ti.refreshToken,
          .persistTokens ti.connectionUserId ti.tenantId newTokens,
          .apiCall 1 newTokens.access_token ti.tenantId])) := by
  constructor
  · intro st body hfail hne
    have hb : (st == some 401) = false := beq_eq_false_iff_ne.mpr hne
    simp only [xeroRequest, hti, hfail, hb, Bool.false_and, Bool.false_eq_true, if_false]
  · intro body newTokens db' hfail href hupd
    simp only [xeroRequest, hti, hfail, htr, beq_self_eq_true, Bool.and_self, if_true,
      Bool.true_and, if_pos]
    simp only [refreshAccessToken, href, hupd]
    cases h2 : prov.api 1 newTokens.access_token <;>
      simp [h2, List.cons_append, List.append_assoc]

/-- Witness for C1: against `dbT` and `provT`, caller 2 (not privileged)
hits a 401, one refresh happens, the bundle is persisted under owner 1 and
the retry succeeds. -/
theorem xeroRequest_retry_once_witness :
    xeroRequest envT ivT2 provT dbT 2 false =
      (.ok "items", dbT2,
       [.apiCall 0 (some "atk1") "t1", .refreshCall (some "rtk1"),
        .persistTokens 1 "t1" bundleT9, .apiCall 1 (some "atk9") "t1"]) := by
  have h := (xeroRequest_retry_once envT ivT2 provT dbT 2 false tiT (by decide) (by decide)).2
    "token expired" bundleT9 dbT2 (by decide) (by decide) (by decide)
  exact h

/-- **C3** If the refresh exchange during a pipeline call is rejected by
the provider, the call fails with the refresh-exchange failure surface (the
propagated provider rejection, the `ReauthorizationRequired` surface of the
design) and the store is left exactly as it was: no field rewritten, no
record deleted. -/
theorem refresh_failure_surfaced_record_untouched (env : Env) (ivR : List Nat)
    (prov : Provider) (db : DBState) (userId : Nat) (isAdmin : Bool) (ti : TokenInfo)
    (hti : ensureValidToken env db userId isAdmin none = .ok ti)
    (htr : jsTruthy ti.refreshToken = true) (body ebody : String)
    (hfail : prov.api 0 ti.accessToken = .fail (some 401) body)
    (href : prov.refreshEx ti.refreshToken = .error ebody) :
    xeroRequest env ivR prov db userId isAdmin =
      (.error (.refreshExchange ebody), db,
       [.apiCall 0 ti.accessToken ti.tenantId, .refreshCall ti.refreshToken]) := by
  simp only [xeroRequest, hti, hfail, htr, beq_self_eq_true, Bool.and_self, if_true,
    Bool.true_and, if_pos]
  simp only [refreshAccessToken, href]

/-- Witness for C3: with `provRefuse` the call fails with the propagated
`invalid_grant` rejection and the store is unchanged. -/
theorem refresh_failure_witness :
    xeroRequest envT ivT2 provRefuse dbT 2 false =
      (.error (.refreshExchange "invalid_grant"), dbT,
       [.apiCall 0 (some "atk1") "t1", .refreshCall (some "rtk1")]) :=
  refresh_failure_surfaced_record_untouched envT ivT2 provRefuse dbT 2 false tiT
    (by decide) (by decide) "token expired" "invalid_grant" (by decide) (by decide)

/-- **C10** If the stored bundle's refresh token is missing or empty (not
truthy), a 401 from the provider propagates to the caller unmodified and no
refresh exchange is attempted (the trace holds no refresh event and the
store is unchanged). -/
theorem no_refresh_token_propagates_401 (env : Env) (ivR : List Nat)
    (prov : Provider) (db : DBState) (userId : Nat) (isAdmin : Bool) (ti : TokenInfo)
    (hti : ensureValidToken env db userId isAdmin none = .ok ti)
    (htr : jsTruthy ti.refreshToken = false) (body : String)
    (hfail : prov.api 0 ti.accessToken = .fail (some 401) body) :
    xeroRequest env ivR prov db userId isAdmin =
      (.error (.apiError (some 401) body), db,
       [.apiCall 0 ti.accessToken ti.tenantId]) := by
  simp only [xeroRequest, hti, hfail, htr, Bool.and_false, Bool.false_eq_true, if_false]

/-- Witness for C10: the no-refresh-token store propagates the 401 as is. -/
theorem no_refresh_token_witness :
    xeroRequest envT ivT2 provRefuse dbNR 2 false =
      (.error (.apiError (some 401) "token expired"), dbNR,
       [.apiCall 0 (some "atk3") "t1"]) :=
  no_refresh_token_propagates_401 envT ivT2 provRefuse dbNR 2 false
    ⟨some "atk3", none, "t1", 1⟩ (by decide) (by decide) "token expired" (by decide)

/-- **C7** If the `state` query parameter is absent (or empty), or there is
no session user, or `state` differs from the session user's identity, the
callback is rejected with the invalid-state response before any provider
call: the trace is empty (in particular no token exchange) and the store is
unchanged. -/
theorem callback_rejects_bad_state (env : Env) (ivR : List Nat)
    (prov : CallbackProvider) (db : DBState) (sessionUserId : Option Nat)
    (isAdmin : Bool) (qCode qState : Option String)
    (h : jsTruthy qState = false ∨ sessionUserId = none ∨
         ∀ u, sessionUserId = some u → qState ≠ some (toString u)) :
    callbackHandler env ivR prov db sessionUserId isAdmin qCode qState =
      (.invalidState, db, []) := by
  have hc : (!(jsTruthy qState) || sessionUserId.isNone
      || !(qState == sessionUserId.map (fun u => toString u))) = true := by
    rcases h with h | h | h
    · simp [h]
    · simp [h]
    · cases sessionUserId with
      | none => simp
      | some u =>
        have hb : (qState == some (toString u)) = false :=
          beq_eq_false_iff_ne.mpr (h u rfl)
        simp [hb]
  unfold callbackHandler
  rw [if_pos hc]

/-- Witness for C7: session user 1, state `"2"`: rejected, nothing called. -/
theorem callback_rejects_bad_state_witness :
    callbackHandler envT ivT cbProvT dbEmpty (some 1) false (some "c0") (some "2") =
      (.invalidState, dbEmpty, []) :=
  callback_rejects_bad_state envT ivT cbProvT dbEmpty (some 1) false (some "c0") (some "2")
    (Or.inr (Or.inr (fun u hu => by cases hu; decide)))

/-- The head of the date-descending sort is in the list and carries its
greatest `createdDateUtc`. -/
theorem sortOrgsDesc_head_max (conns : List OrgConnection) (chosen : OrgConnection)
    (rest : List OrgConnection) (h : sortOrgsDesc conns = chosen :: rest) :
    chosen ∈ conns ∧ ∀ c ∈ conns, c.createdDateUtc ≤ chosen.createdDateUtc := by
  have hperm : (sortOrgsDesc conns).Perm conns := List.perm_insertionSort orgGe conns
  have hsorted : List.Sorted orgGe (sortOrgsDesc conns) :=
    List.sorted_insertionSort orgGe conns
  constructor
  · exact hperm.mem_iff.mp (by rw [h]; exact List.mem_cons_self _ _)
  · intro c hc
    have hc2 : c ∈ chosen :: rest := by rw [← h]; exact hperm.mem_iff.mpr hc
    rcases List.mem_cons.mp hc2 with rfl | hc3
    · exact le_refl _
    · rw [h] at hsorted
      exact (List.sorted_cons.mp hsorted).1 c hc3

/-- **C8** With a matching state and a successful grant exchange: an empty
connections listing yields the no-organizations failure with nothing
persisted; a non-empty listing makes the handler select the organization
with the greatest `createdDateUtc` and save exactly that one. -/
theorem callback_selects_latest_tenant (env : Env) (ivR : List Nat)
    (prov : CallbackProvider) (db : DBState) (u : Nat) (isAdmin : Bool)
    (qCode : Option String) (tokens : TokenBundle) (conns : List OrgConnection)
    (hstate : jsTruthy (some (toString u)) = true)
    (hex : prov.tokenExchange qCode = .ok tokens)
    (hconns : prov.connections tokens.access_token = .ok conns) :
    (conns = [] →
      callbackHandler env ivR prov db (some u) isAdmin qCode (some (toString u)) =
        (.noOrganizations, db,
         [.exchangeCall qCode, .connectionsCall tokens.access_token])) ∧
    (conns ≠ [] → ∃ chosen rest, sortOrgsDesc conns = chosen :: rest ∧
      chosen ∈ conns ∧ (∀ c ∈ conns, c.createdDateUtc ≤ chosen.createdDateUtc) ∧
      ∀ s db', saveXeroConnection env ivR db u chosen.tenantId chosen.tenantName
          tokens isAdmin = .ok (s, db') →
        callbackHandler env ivR prov db (some u) isAdmin qCode (some (toString u)) =
          (.redirect (if isAdmin then "/admin?connected=true" else "/?connected=true"),
           db',
           [.exchangeCall qCode, .connectionsCall tokens.access_token,
            .saveConnection u chosen.tenantId chosen.tenantName tokens])) := by
  constructor
  · intro hempty
    subst hempty
    unfold callbackHandler
    rw [if_neg (by simp [hstate])]
    simp only [hex, hconns, List.isEmpty_nil, if_true]
  · intro hne
    obtain ⟨chosen, rest, hsort⟩ : ∃ chosen rest, sortOrgsDesc conns = chosen :: rest := by
      cases hs : sortOrgsDesc conns with
      | nil =>
        have hperm : (sortOrgsDesc conns).Perm conns := List.perm_insertionSort orgGe conns
        rw [hs] at hperm
        exact absurd hperm.symm.eq_nil hne
      | cons a l => exact ⟨a, l, rfl⟩
    obtain ⟨hmem, hmax⟩ := sortOrgsDesc_head_max conns chosen rest hsort
    refine ⟨chosen, rest, hsort, hmem, hmax, ?_⟩
    intro s db' hsave
    have hie : conns.isEmpty = false := by
      cases conns with
      | nil => exact absurd rfl hne
      | cons a l => rfl
    unfold callbackHandler
    rw [if_neg (by simp [hstate])]
    simp only [hex, hconns, hie, if_false, Bool.false_eq_true, hsort, Option.getD_some, hsave]

/-- Witness for C8: both branches at concrete inputs.  With the listing
`[orgA (2024-01-01), orgB (2024-06-01)]` the handler saves `orgB`; with an
empty listing it fails and persists nothing. -/
theorem callback_selects_latest_tenant_witness :
    callbackHandler envT ivT cbProvT dbEmpty (some 1) false (some "c0") (some "1") =
      (.redirect "/?connected=true", dbOrgB,
       [.exchangeCall (some "c0"), .connectionsCall (some "atk1"),
        .saveConnection 1 "tB" "Org B" bundleT]) ∧
    callbackHandler envT ivT cbProvNoOrgs dbEmpty (some 1) false (some "c0") (some "1") =
      (.noOrganizations, dbEmpty,
       [.exchangeCall (some "c0"), .connectionsCall (some "atk1")]) := by
  constructor
  · have h := (callback_selects_latest_tenant envT ivT cbProvT dbEmpty 1 false
      (some "c0") bundleT orgsT (by decide) (by decide) (by decide)).2 (by decide)
    obtain ⟨chosen, rest, hsort, -, -, hfinal⟩ := h
    have hcr : chosen :: rest = [orgB, orgA] := by
      rw [← hsort]; decide
    have hchosen : chosen = orgB := by injection hcr
    subst hchosen
    exact hfinal ⟨1, "tB", "Org B"⟩ dbOrgB (by decide)
  · exact (callback_selects_latest_tenant envT ivT cbProvNoOrgs dbEmpty 1 false
      (some "c0") bundleT [] (by decide) (by decide) (by decide)).1 rfl

/-- Successful `saveXeroConnection`, characterized: the bundle was sealed,
and either the existing row for the key was rewritten in place or a fresh
row was appended. -/
theorem saveXeroConnection_char (env : Env) (iv : List Nat) (db : DBState)
    (u : Nat) (t name : String) (tk : TokenBundle) (sys : Bool)
    (s : RecordSummary) (db' : DBState)
    (h : saveXeroConnection env iv db u t name tk sys = .ok (s, db')) :
    ∃ sealed, encryptTokens env iv tk = .ok sealed ∧
      ((∃ r0, db.rows.find? (keyMatch u t) = some r0 ∧ s = ⟨r0.id, t, name⟩ ∧
        db'.rows = db.rows.map (fun x => if keyMatch u t x then
          { x with tenant_name := name, encrypted_tokens := sealed.encrypted,
                   encryption_iv := sealed.iv, encryption_tag := sealed.tag,
                   is_system_connection := sys, last_synced := db.now }
          else x) ∧
        db'.nextId = db.nextId ∧ db'.now = db.now)
      ∨ (db.rows.find? (keyMatch u t) = none ∧ s = ⟨db.nextId, t, name⟩ ∧
        db'.rows = db.rows ++ [⟨db.nextId, u, t, name, sealed.encrypted, sealed.iv,
          sealed.tag, sys, db.now, db.now⟩] ∧
        db'.nextId = db.nextId + 1 ∧ db'.now = db.now)) := by
  unfold saveXeroConnection at h
  split at h
  · exact absurd h (by simp)
  · rename_i sealed henc
    refine ⟨sealed, henc, ?_⟩
    split at h
    · rename_i r0 hfind
      simp only [Except.ok.injEq, Prod.mk.injEq] at h
      obtain ⟨hs, hdb⟩ := h
      exact Or.inl ⟨r0, hfind, hs.symm, by rw [← hdb], by rw [← hdb], by rw [← hdb]⟩
    · rename_i hfind
      simp only [Except.ok.injEq, Prod.mk.injEq] at h
      obtain ⟨hs, hdb⟩ := h
      exact Or.inr ⟨hfind, hs.symm, by rw [← hdb], by rw [← hdb], by rw [← hdb]⟩

/-- Successful `updateXeroTokens`, characterized: the bundle was sealed and
every row matching the key had its cipher columns and `last_synced`
rewritten. -/
theorem updateXeroTokens_char (env : Env) (iv : List Nat) (db : DBState)
    (u : Nat) (t : String) (tk : TokenBundle) (db' : DBState)
    (h : updateXeroTokens env iv db u t tk = .ok db') :
    ∃ sealed, encryptTokens env iv tk = .ok sealed ∧
      db'.rows = db.rows.map (fun r => if keyMatch u t r then
        { r with encrypted_tokens := sealed.encrypted, encryption_iv := sealed.iv,
                 encryption_tag := sealed.tag, last_synced := db.now }
        else r) ∧
      db'.nextId = db.nextId ∧ db'.now = db.now := by
  unfold updateXeroTokens at h
  split at h
  · exact absurd h (by simp)
  · rename_i sealed henc
    simp only [Except.ok.injEq] at h
    exact ⟨sealed, henc, by rw [← h], by rw [← h], by rw [← h]⟩

/-- **C9** Every store state reachable through the repository's operations
(under the provider wire contract that token responses carry both tokens)
holds only rows whose decrypted bundle contains both an access token and a
refresh token: no reachable state stores an access token without a refresh
token. -/
theorem stored_bundles_are_pairs (env : Env) (db : DBState) (h : Reach env db) :
    ∀ r ∈ db.rows, bundleStoredPair env r := by
  induction h with
  | init now => intro r hr; exact absurd hr (by simp)
  | tick db n _ ih => intro r hr; exact ih r hr
  | grant db iv u t name tk sys s db' htk hsave _ ih =>
    intro r hr
    obtain ⟨sealed, henc, hcase⟩ :=
      saveXeroConnection_char env iv db u t name tk sys s db' hsave
    have hdec : decryptTokens env sealed.encrypted sealed.iv sealed.tag = .ok tk :=
      decryptTokens_encryptTokens env iv tk sealed henc
    rcases hcase with ⟨r0, -, -, hrows, -, -⟩ | ⟨-, -, hrows, -, -⟩
    · rw [hrows] at hr
      obtain ⟨x, hx, hupd⟩ := List.mem_map.mp hr
      by_cases hk : keyMatch u t x
      · rw [if_pos hk] at hupd
        subst hupd
        exact ⟨tk, hdec, htk⟩
      · rw [if_neg hk] at hupd
        subst hupd
        exact ih x hx
    · rw [hrows] at hr
      rcases List.mem_append.mp hr with hr1 | hr2
      · exact ih r hr1
      · rw [List.mem_singleton.mp hr2]
        exact ⟨tk, hdec, htk⟩
  | refresh db iv u t tk db' htk hupd _ ih =>
    intro r hr
    obtain ⟨sealed, henc, hrows, -, -⟩ := updateXeroTokens_char env iv db u t tk db' hupd
    have hdec : decryptTokens env sealed.encrypted sealed.iv sealed.tag = .ok tk :=
      decryptTokens_encryptTokens env iv tk sealed henc
    rw [hrows] at hr
    obtain ⟨x, hx, hx2⟩ := List.mem_map.mp hr
    by_cases hk : keyMatch u t x
    · rw [if_pos hk] at hx2
      subst hx2
      exact ⟨tk, hdec, htk⟩
    · rw [if_neg hk] at hx2
      subst hx2
      exact ih x hx
  | del db u t _ ih =>
    intro r hr
    exact ih r (List.mem_of_mem_filter hr)
  | delSys db _ ih =>
    intro r hr
    exact ih r (List.mem_of_mem_filter hr)

/-- Witness for C9: the state reached by one grant save of `bundleT` holds
`rowT`, and its stored bundle decrypts to a full pair. -/
theorem stored_bundles_are_pairs_witness : bundleStoredPair envT rowT := by
  have hreach : Reach envT dbT :=
    Reach.grant dbEmpty ivT 1 "t1" "Org One" bundleT true ⟨1, "t1", "Org One"⟩ dbT
      ⟨by decide, by decide⟩ (by decide) (Reach.init 100)
  exact stored_bundles_are_pairs envT dbT hreach rowT (by decide)

theorem keyMatch_updated_save (u : Nat) (t name : String) (sealed : SealedTokens)
    (sys : Bool) (now : Nat) (x : XeroRow) :
    keyMatch u t (if keyMatch u t x then
      { x with tenant_name := name, encrypted_tokens := sealed.encrypted,
               encryption_iv := sealed.iv, encryption_tag := sealed.tag,
               is_system_connection := sys, last_synced := now }
      else x) = keyMatch u t x := by
  by_cases hk : keyMatch u t x
  · rw [if_pos hk]
    simp only [keyMatch]
  · rw [if_neg hk]

/-- Filtering on the key commutes with a key-preserving row rewrite. -/
theorem filter_map_keyPreserving (p : XeroRow → Bool) (f : XeroRow → XeroRow)
    (hf : ∀ x, p (f x) = p x) (l : List XeroRow) :
    (l.map f).filter p = (l.filter p).map f := by
  rw [List.filter_map f]
  congr 1
  apply List.filter_congr
  intro a _
  simpa [Function.comp] using hf a

/-- Under the unique index there is at most one row per key. -/
theorem wf_filter_le_one (db : DBState) (hwf : wfDB db) (u : Nat) (t : String) :
    (db.rows.filter (keyMatch u t)).length ≤ 1 := by
  rcases hfl : db.rows.filter (keyMatch u t) with - | ⟨x, - | ⟨y, l⟩⟩
  · simp
  · simp
  · exfalso
    have hpw : (db.rows.filter (keyMatch u t)).Pairwise (fun a b => keyOf a ≠ keyOf b) :=
      hwf.filter _
    rw [hfl] at hpw
    have hxy : keyOf x ≠ keyOf y := (List.pairwise_cons.mp hpw).1 y (by simp)
    have hx : keyMatch u t x := List.of_mem_filter (l := db.rows) (by rw [hfl]; simp)
    have hy : keyMatch u t y := List.of_mem_filter (l := db.rows) (by rw [hfl]; simp)
    simp only [keyMatch, Bool.and_eq_true, beq_iff_eq] at hx hy
    apply hxy
    simp [keyOf, hx.1, hx.2, hy.1, hy.2]

/-- After a successful upsert there is exactly one row for the key. -/
theorem save_filter_count (env : Env) (iv : List Nat) (db : DBState)
    (u : Nat) (t name : String) (tk : TokenBundle) (sys : Bool)
    (s : RecordSummary) (db' : DBState) (hwf : wfDB db)
    (h : saveXeroConnection env iv db u t name tk sys = .ok (s, db')) :
    (db'.rows.filter (keyMatch u t)).length = 1 := by
  obtain ⟨sealed, -, hcase⟩ := saveXeroConnection_char env iv db u t name tk sys s db' h
  rcases hcase with ⟨r0, hfind, -, hrows, -, -⟩ | ⟨hfind, -, hrows, -, -⟩
  · rw [hrows, filter_map_keyPreserving _ _ (keyMatch_updated_save u t name sealed sys db.now)]
    rw [List.length_map]
    have hr0 : r0 ∈ db.rows.filter (keyMatch u t) :=
      List.mem_filter.mpr ⟨List.mem_of_find?_eq_some hfind, List.find?_some hfind⟩
    have h1 : 0 < (db.rows.filter (keyMatch u t)).length :=
      List.length_pos.mpr (List.ne_nil_of_mem hr0)
    have h2 := wf_filter_le_one db hwf u t
    omega
  · rw [hrows, List.filter_append]
    have hnil : db.rows.filter (keyMatch u t) = [] :=
      List.filter_eq_nil_iff.mpr (fun x hx => by
        simpa using List.find?_eq_none.mp hfind x hx)
    rw [hnil]
    simp [keyMatch]

/-- **C6** Upserting twice with the same `(ownerId, externalTenantId)` key
and different bundles leaves exactly one stored record for the key, whose
bundle decrypts to the latest one; the connection listing shows exactly one
entry for the key; and the returned value carries only the non-secret
summary fields (id, tenant id, tenant name) and does not depend on the
bundle at all. -/
theorem upsert_idempotent (env : Env)
    (iv1 iv2 : List Nat) (db : DBState) (hwf : wfDB db) (u : Nat) (t n1 n2 : String)
    (b1 b2 : TokenBundle) (sys1 sys2 : Bool) (s1 : RecordSummary) (db1 : DBState)
    (s2 : RecordSummary) (db2 : DBState)
    (h1 : saveXeroConnection env iv1 db u t n1 b1 sys1 = .ok (s1, db1))
    (h2 : saveXeroConnection env iv2 db1 u t n2 b2 sys2 = .ok (s2, db2)) :
    ((db2.rows.filter (keyMatch u t)).length = 1) ∧
    (∀ r ∈ db2.rows, keyMatch u t r = true →
      decryptTokens env r.encrypted_tokens r.encryption_iv r.encryption_tag = .ok b2) ∧
    (((getAllXeroConnections db2 u).filter (fun c => c.tenant_id == t)).length = 1) ∧
    s2.tenant_id = t ∧ s2.tenant_name = n2 ∧
    (∀ iv' b' s' db'', saveXeroConnection env iv' db1 u t n2 b' sys2 = .ok (s', db'') →
      s' = s2) := by
  have hcnt1 : (db1.rows.filter (keyMatch u t)).length = 1 :=
    save_filter_count env iv1 db u t n1 b1 sys1 s1 db1 hwf h1
  obtain ⟨x1, hx1⟩ := List.length_eq_one.mp hcnt1
  have hx1m : x1 ∈ db1.rows.filter (keyMatch u t) := by rw [hx1]; simp
  obtain ⟨sealed2, henc2, hcase2⟩ :=
    saveXeroConnection_char env iv2 db1 u t n2 b2 sys2 s2 db2 h2
  rcases hcase2 with ⟨r1', hfind1', hs2, hrows2, -, -⟩ | ⟨hfind1', -, -, -, -⟩
  · -- the second save necessarily updates in place
    have hfm := filter_map_keyPreserving (keyMatch u t) _
      (keyMatch_updated_save u t n2 sealed2 sys2 db1.now) db1.rows
    have hcnt2 : (db2.rows.filter (keyMatch u t)).length = 1 := by
      rw [hrows2, hfm, List.length_map, hcnt1]
    refine ⟨hcnt2, ?_, ?_, by rw [hs2], by rw [hs2], ?_⟩
    · -- the surviving row holds the latest bundle
      intro r hr hk
      have hrf : r ∈ db2.rows.filter (keyMatch u t) := List.mem_filter.mpr ⟨hr, hk⟩
      rw [hrows2, hfm, hx1] at hrf
      simp only [List.map_cons, List.map_nil, List.mem_singleton] at hrf
      subst hrf
      rw [if_pos (List.of_mem_filter hx1m)]
      exact decryptTokens_encryptTokens env iv2 b2 sealed2 henc2
    · -- the listing shows exactly one entry for the key
      unfold getAllXeroConnections
      rw [List.filter_map
        (fun r : XeroRow => (⟨r.id, r.tenant_id, r.tenant_name, r.last_synced,
          r.created_at⟩ : ConnectionListing))]
      rw [List.length_map]
      have hpc : ((sortRowsDesc (db2.rows.filter (fun r => r.user_id == u))).filter
          (((fun c : ConnectionListing => c.tenant_id == t)) ∘ fun r : XeroRow =>
            (⟨r.id, r.tenant_id, r.tenant_name, r.last_synced, r.created_at⟩ :
              ConnectionListing))).length
          = ((db2.rows.filter (fun r => r.user_id == u)).filter
              (fun r : XeroRow => r.tenant_id == t)).length := by
        have hperm := (sortRowsDesc_perm (db2.rows.filter (fun r => r.user_id == u))).filter
          (fun r : XeroRow => r.tenant_id == t)
        rw [← hperm.length_eq]
        rfl
      rw [hpc, List.filter_filter]
      have : (db2.rows.filter fun a => (a.tenant_id == t) && (a.user_id == u)) =
          db2.rows.filter (keyMatch u t) := by
        apply List.filter_congr
        intro a _
        simp [keyMatch, Bool.and_comm]
      rw [this, hcnt2]
    · -- the summary does not depend on the bundle
      intro iv' b' s' db'' h'
      obtain ⟨sealed', -, hcase'⟩ :=
        saveXeroConnection_char env iv' db1 u t n2 b' sys2 s' db'' h'
      rcases hcase' with ⟨r1'', hfind'', hs', -, -, -⟩ | ⟨hfind'', -, -, -, -⟩
      · rw [hfind1'] at hfind''
        have hid := Option.some.inj hfind''
        rw [hs', hs2, ← hid]
      · rw [hfind1'] at hfind''
        exact absurd hfind'' (by simp)
  · -- insert is impossible: the key already has its row after the first save
    exact absurd (List.find?_eq_none.mp hfind1' x1 (List.mem_of_mem_filter hx1m))
      (by simpa using List.of_mem_filter hx1m)

/-- Witness for C6 at the fixture store: one row for the key, one listing
entry, and its bundle decrypts to the second upsert's bundle. -/
theorem upsert_idempotent_witness :
    ((dbC6.rows.filter (keyMatch 1 "t1")).length = 1) ∧
    (((getAllXeroConnections dbC6 1).filter (fun c => c.tenant_id == "t1")).length = 1) ∧
    decryptTokens envT rowC6.encrypted_tokens rowC6.encryption_iv rowC6.encryption_tag
      = .ok bundleT2 := by
  have h := upsert_idempotent envT ivT ivT2 dbEmpty
    (by simp [wfDB, dbEmpty]) 1 "t1" "Org One" "Org One" bundleT bundleT2 true true
    ⟨1, "t1", "Org One"⟩ dbT ⟨1, "t1", "Org One"⟩ dbC6 (by decide) (by decide)
  exact ⟨h.1, h.2.2.1, h.2.1 rowC6 (by decide) (by decide)⟩

end Prodit
